import Mathlib

/-!
Shallow embedding of the Solar Panel Fault Detection core
(`new-ui.py`): the defect-loss table, the classifier-output
normalization in `classify_image`, and the efficiency model and
angle search in `compute_best_angle`.  Numeric computation is
modelled over `ℚ`; the external classifier call is modelled as an
oracle `Image → Except Unit String` (an `Except.error` value stands
for a raised exception, `Except.ok t` for a response with text `t`).
-/

namespace SolarPanel

/-- Opaque stand-in for a PIL image; the core never inspects it beyond
a `None` check and forwarding it to the external classifier. -/
structure Image where
  data : Nat

/-- The `DEFECT_LOSS` dictionary from the source, as an association
list in the dictionary's (insertion = iteration) order. -/
def DEFECT_LOSS : List (String × ℚ) :=
  [("clean", 0),
   ("dusty", 20),
   ("bird drop", 30),
   ("snow covered", 40),
   ("electrical damage", 50),
   ("physical damage", 60)]

/-- Tests whether the list `pre` is an initial segment of `l`
(helper for the substring containment test). -/
def startsWithList : List Char → List Char → Bool
  | [], _ => true
  | _ :: _, [] => false
  | a :: as, b :: bs => a == b && startsWithList as bs

/-- Python's `needle in hay` substring containment on strings,
expressed on character lists. -/
def containsSub : List Char → List Char → Bool
  | hay, needle =>
    if startsWithList needle hay then true
    else
      match hay with
      | [] => false
      | _ :: t => containsSub t needle

/-- Python's `possible_defect in label` on strings. -/
def strContains (hay needle : String) : Bool :=
  containsSub hay.toList needle.toList

/-- Removes the leading whitespace characters of a character list. -/
def dropWhileWs : List Char → List Char
  | [] => []
  | c :: cs => if c.isWhitespace then dropWhileWs cs else c :: cs

/-- Python's `str.strip()`: remove leading and trailing whitespace. -/
def pyStrip (l : List Char) : List Char :=
  (dropWhileWs (dropWhileWs l).reverse).reverse

/-- Python's `response.text.strip().lower()` normalization: strip
surrounding whitespace, then lower-case every character. -/
def stripLower (s : String) : String :=
  String.mk ((pyStrip s.toList).map Char.toLower)

/-- The `classify_image` function from the source.  The external
`client.models.generate_content` call is abstracted as `call`; the
`image is None` check, the empty-response check, the
`strip().lower()` normalization, the first-substring-match scan over
`DEFECT_LOSS`, and the catch-all exception handler returning
`"clean"` are all modelled. -/
def classify_image (call : Image → Except Unit String) (image : Option Image) : String :=
  match image with
  | none => "clean"
  | some img =>
    match call img with
    | Except.error _ => "clean"
    | Except.ok t =>
      if t = "" then "clean"
      else
        let label := stripLower t
        match DEFECT_LOSS.find? (fun p => strContains label p.1) with
        | some p => p.1
        | none => "clean"

/-- Python's `DEFECT_LOSS.get(defect, 0)`. -/
def lookupLoss (defect : String) : ℚ :=
  ((DEFECT_LOSS.find? (fun p => p.1 == defect)).map Prod.snd).getD 0

/-- The fixed `base_loss = 2.0` constant from the source. -/
def base_loss : ℚ := 2

/-- The `target_optimal = (latitude * 0.76) + 3.1` computation. -/
def target_optimal (latitude : ℚ) : ℚ := latitude * (76/100) + 31/10

/-- Python's builtin `abs` on an exact rational. -/
def pyabs (q : ℚ) : ℚ := if q < 0 then -q else q

/-- Python's builtin `min` on two rationals (returns the first
argument on ties). -/
def pymin (a b : ℚ) : ℚ := if b < a then b else a

/-- Python's builtin `max` on two rationals (returns the first
argument on ties). -/
def pymax (a b : ℚ) : ℚ := if a < b then b else a

/-- The `angle_deviation_loss = 0.4 * abs(target_optimal - angle)`
computation for an integer angle candidate. -/
def angle_deviation_loss (latitude : ℚ) (angle : ℕ) : ℚ :=
  (4/10) * pyabs (target_optimal latitude - (angle : ℚ))

/-- The per-angle efficiency value from the loop body:
`(100 - base_loss) - defect_loss - angle_deviation_loss`, then
`max(0, min(99.0, efficiency))`. -/
def efficiency (angle : ℕ) (latitude defect_loss : ℚ) : ℚ :=
  pymax 0 (pymin 99 ((100 - base_loss) - defect_loss - angle_deviation_loss latitude angle))

/-- One iteration of the search loop: the running state is
`(best_angle, best_eff)`, replaced only on strict improvement. -/
def searchStep (latitude defect_loss : ℚ) (st : ℕ × ℚ) (angle : ℕ) : ℕ × ℚ :=
  if efficiency angle latitude defect_loss > st.2
  then (angle, efficiency angle latitude defect_loss)
  else st

/-- The search loop truncated to its first `n` iterations (the state
after the candidates `0, …, n-1` have been examined); proof helper. -/
def bestPair (latitude defect_loss : ℚ) (n : ℕ) : ℕ × ℚ :=
  (List.range n).foldl (searchStep latitude defect_loss) (0, -1)

/-- The full `for angle in range(0, 91)` search, from the initial
state `best_angle = 0`, `best_eff = -1`. -/
def optimize (latitude defect_loss : ℚ) : ℕ × ℚ :=
  (List.range 91).foldl (searchStep latitude defect_loss) (0, -1)

/-- Python's `str.title()` for the condition display text: an alphabetic
character is upper-cased when it follows a non-alphabetic character (or
starts the string) and lower-cased otherwise. -/
def titleCase (s : String) : String :=
  let step : Bool × List Char → Char → Bool × List Char := fun st c =>
    if c.isAlpha then
      (true, (if st.1 then c.toLower else c.toUpper) :: st.2)
    else
      (false, c :: st.2)
  String.mk (s.toList.foldl step (false, [])).2.reverse

/-- Python's `round` on an exact rational: round half to even. -/
def pyRound (q : ℚ) : ℤ :=
  if q - ⌊q⌋ < 1/2 then ⌊q⌋
  else if (1 : ℚ)/2 < q - ⌊q⌋ then ⌊q⌋ + 1
  else if ⌊q⌋ % 2 = 0 then ⌊q⌋ else ⌊q⌋ + 1

/-- Python's `round(x, 2)` on an exact rational. -/
def round2 (q : ℚ) : ℚ := (pyRound (q * 100) : ℚ) / 100

/-- The `compute_best_angle` entry point: the missing-input sentinel,
the classification, the defect-loss lookup, the 91-angle search, and
the rendering of the result triple. -/
def compute_best_angle (call : Image → Except Unit String)
    (image : Option Image) (latitude : Option ℚ) : String × String × ℚ :=
  match image, latitude with
  | some img, some lat =>
    let defect := classify_image call (some img)
    let defect_loss := lookupLoss defect
    let r := optimize lat defect_loss
    (toString r.1 ++ "°", titleCase defect, round2 r.2)
  | _, _ => ("No input", "N/A", 0)

/-! Bridge lemmas from the Python-style builtins to the order
operations of Mathlib. -/

lemma pymax_eq (a b : ℚ) : pymax a b = max a b := by
  unfold pymax
  split_ifs with h
  · exact (max_eq_right h.le).symm
  · exact (max_eq_left (not_lt.mp h)).symm

lemma pymin_eq (a b : ℚ) : pymin a b = min a b := by
  unfold pymin
  split_ifs with h
  · exact (min_eq_right h.le).symm
  · exact (min_eq_left (not_lt.mp h)).symm

lemma pyabs_eq (q : ℚ) : pyabs q = |q| := by
  unfold pyabs
  split_ifs with h
  · exact (abs_of_neg h).symm
  · exact (abs_of_nonneg (not_lt.mp h)).symm

/-- The loop-body efficiency in closed form over Mathlib's order
operations. -/
lemma efficiency_eq (a : ℕ) (L d : ℚ) :
    efficiency a L d =
      max 0 (min 99 (98 - d - (4/10) * |target_optimal L - (a : ℚ)|)) := by
  unfold efficiency angle_deviation_loss base_loss
  rw [pymax_eq, pymin_eq, pyabs_eq]
  norm_num

lemma efficiency_nonneg (a : ℕ) (L d : ℚ) : 0 ≤ efficiency a L d := by
  rw [efficiency_eq]; exact le_max_left _ _

lemma efficiency_le_99 (a : ℕ) (L d : ℚ) : efficiency a L d ≤ 99 := by
  rw [efficiency_eq]
  exact max_le (by norm_num) (min_le_left _ _)

lemma neg_one_lt_efficiency (a : ℕ) (L d : ℚ) : (-1 : ℚ) < efficiency a L d :=
  lt_of_lt_of_le (by norm_num) (efficiency_nonneg a L d)

/-! The search-loop invariant: after the candidates `0, …, n-1` have
been examined, the state holds an angle below `n` realising the
running maximum, every examined angle scores at most the running
maximum, and every angle below the stored one scores strictly less
(this last conjunct is the ascending-order strict-improvement
tie-break). -/

lemma bestPair_succ (L d : ℚ) (n : ℕ) :
    bestPair L d (n + 1) = searchStep L d (bestPair L d n) n := by
  unfold bestPair
  rw [List.range_succ, List.foldl_append, List.foldl_cons, List.foldl_nil]

lemma bestPair_inv (L d : ℚ) (n : ℕ) (hn : 1 ≤ n) :
    (bestPair L d n).1 < n ∧
    (bestPair L d n).2 = efficiency (bestPair L d n).1 L d ∧
    (∀ a : ℕ, a < n → efficiency a L d ≤ (bestPair L d n).2) ∧
    (∀ a : ℕ, a < (bestPair L d n).1 → efficiency a L d < (bestPair L d n).2) := by
  induction n, hn using Nat.le_induction with
  | base =>
    have h1 : bestPair L d 1 = (0, efficiency 0 L d) := by
      unfold bestPair
      have hr : List.range 1 = [0] := by decide
      rw [hr, List.foldl_cons, List.foldl_nil, searchStep,
        if_pos (neg_one_lt_efficiency 0 L d)]
    rw [h1]
    refine ⟨Nat.zero_lt_one, rfl, ?_, ?_⟩
    · intro a ha
      interval_cases a
      exact le_refl _
    · intro a ha
      exact absurd ha (Nat.not_lt_zero a)
  | succ n hn ih =>
    obtain ⟨ih1, ih2, ih3, ih4⟩ := ih
    rw [bestPair_succ, searchStep]
    split_ifs with hc
    · refine ⟨Nat.lt_succ_self n, rfl, ?_, ?_⟩
      · intro a ha
        rcases Nat.lt_succ_iff_lt_or_eq.mp ha with h | h
        · exact le_of_lt (lt_of_le_of_lt (ih3 a h) hc)
        · subst h; exact le_refl _
      · intro a ha
        exact lt_of_le_of_lt (ih3 a ha) hc
    · push_neg at hc
      refine ⟨Nat.lt_succ_of_lt ih1, ih2, ?_, ih4⟩
      intro a ha
      rcases Nat.lt_succ_iff_lt_or_eq.mp ha with h | h
      · exact ih3 a h
      · subst h; exact hc

lemma optimize_eq_bestPair (L d : ℚ) : optimize L d = bestPair L d 91 := rfl

/-- The invariant specialised to the full 91-candidate search. -/
lemma optimize_spec (L d : ℚ) :
    (optimize L d).1 ≤ 90 ∧
    (optimize L d).2 = efficiency (optimize L d).1 L d ∧
    (∀ a : ℕ, a ≤ 90 → efficiency a L d ≤ (optimize L d).2) ∧
    (∀ a : ℕ, a < (optimize L d).1 → efficiency a L d < (optimize L d).2) := by
  have h := bestPair_inv L d 91 (by norm_num)
  rw [optimize_eq_bestPair]
  exact ⟨Nat.lt_succ_iff.mp h.1, h.2.1,
    fun a ha => h.2.2.1 a (Nat.lt_succ_iff.mpr ha), h.2.2.2⟩

/-- Every loss value stored in the defect table is non-negative. -/
lemma table_loss_nonneg (p : String × ℚ) (hp : p ∈ DEFECT_LOSS) : 0 ≤ p.2 := by
  fin_cases hp <;> norm_num

/-- Looking a table key up with the fallback-0 `get` returns that key's
stored loss. -/
lemma lookupLoss_key (p : String × ℚ) (hp : p ∈ DEFECT_LOSS) : lookupLoss p.1 = p.2 := by
  fin_cases hp <;> simp [lookupLoss, DEFECT_LOSS]

/-- C1: for every angle a in [0,90], every latitude L and every condition
loss d, the efficiency computed by the core equals
(100 - 2.0) - d - 0.4 * |(L * 0.76 + 3.1) - a| clamped to [0, 99.0]; the
target optimal angle used is L * 0.76 + 3.1 and the base loss 2.0 is
applied unconditionally. -/
theorem efficiency_closed_formula (a : ℕ) (L d : ℚ) (_ha : a ≤ 90) :
    efficiency a L d =
      max 0 (min 99 ((100 - 2) - d - (4/10) * |(L * (76/100) + 31/10) - (a : ℚ)|)) ∧
    target_optimal L = L * (76/100) + 31/10 ∧
    base_loss = 2 := by
  refine ⟨?_, rfl, rfl⟩
  rw [efficiency_eq, target_optimal]
  norm_num

/-- Witness for C1 at angle 45, latitude 28, condition loss 30. -/
theorem efficiency_closed_formula_witness :
    (45 : ℕ) ≤ 90 ∧
    (efficiency 45 28 30 =
        max 0 (min 99 ((100 - 2) - 30 - (4/10) * |((28:ℚ) * (76/100) + 31/10) - ((45:ℕ) : ℚ)|)) ∧
      target_optimal 28 = 28 * (76/100) + 31/10 ∧
      base_loss = 2) :=
  ⟨by norm_num, efficiency_closed_formula 45 28 30 (by norm_num)⟩

/-- C2: for every latitude and condition loss, the optimizer returns the
smallest angle in [0,90] achieving the maximum clamped efficiency: the
returned efficiency is the value at the returned angle, no candidate
scores higher, and any candidate tying the maximum is at least the
returned angle (ascending iteration with strict-improvement
replacement). -/
theorem optimize_lowest_argmax (L d : ℚ) :
    (optimize L d).1 ≤ 90 ∧
    (optimize L d).2 = efficiency (optimize L d).1 L d ∧
    (∀ a : ℕ, a ≤ 90 → efficiency a L d ≤ (optimize L d).2) ∧
    (∀ a : ℕ, a ≤ 90 → efficiency a L d = (optimize L d).2 → (optimize L d).1 ≤ a) := by
  obtain ⟨h1, h2, h3, h4⟩ := optimize_spec L d
  refine ⟨h1, h2, h3, ?_⟩
  intro a ha heq
  by_contra hlt
  push_neg at hlt
  exact absurd heq (ne_of_lt (h4 a hlt))

/-- Witness for C2 at latitude 28 and condition loss 30. -/
theorem optimize_lowest_argmax_witness :
    (optimize 28 30).1 ≤ 90 ∧
    (optimize 28 30).2 = efficiency (optimize 28 30).1 28 30 ∧
    (∀ a : ℕ, a ≤ 90 → efficiency a 28 30 ≤ (optimize 28 30).2) ∧
    (∀ a : ℕ, a ≤ 90 → efficiency a 28 30 = (optimize 28 30).2 → (optimize 28 30).1 ≤ a) :=
  optimize_lowest_argmax 28 30

/-- C3: whenever the image or the latitude is absent, the entry point
returns the sentinel triple ("No input", "N/A", 0), for every behaviour
of the external classifier. -/
theorem missing_input_sentinel (call : Image → Except Unit String)
    (image : Option Image) (latitude : Option ℚ)
    (h : image = none ∨ latitude = none) :
    compute_best_angle call image latitude = ("No input", "N/A", 0) := by
  rcases h with h | h
  · subst h
    cases latitude <;> rfl
  · subst h
    cases image <;> rfl

/-- Witness for C3: absent image with latitude 28, under a classifier
that would report a dusty panel. -/
theorem missing_input_sentinel_witness :
    compute_best_angle (fun _ => Except.ok "Dusty Panel") none (some 28) =
      ("No input", "N/A", 0) :=
  missing_input_sentinel (fun _ => Except.ok "Dusty Panel") none (some 28) (Or.inl rfl)

/-- C6: for every angle, latitude and table condition entry, the
efficiency at that entry's loss equals the loss-free efficiency minus the
loss, re-clamped to [0, 99]. -/
theorem efficiency_shift_by_loss (a : ℕ) (L : ℚ) (p : String × ℚ)
    (hp : p ∈ DEFECT_LOSS) :
    efficiency a L p.2 = max 0 (min 99 (efficiency a L 0 - p.2)) := by
  have hd : 0 ≤ p.2 := table_loss_nonneg p hp
  rw [efficiency_eq, efficiency_eq]
  have hy : 0 ≤ (4/10) * |target_optimal L - (a : ℚ)| := by positivity
  set y := (4/10) * |target_optimal L - (a : ℚ)| with hydef
  simp only [max_def, min_def]
  split_ifs <;> linarith

/-- Witness for C6 at angle 10, latitude 20, entry ("dusty", 20). -/
theorem efficiency_shift_by_loss_witness :
    efficiency 10 20 (("dusty", (20:ℚ)).2) =
      max 0 (min 99 (efficiency 10 20 0 - ("dusty", (20:ℚ)).2)) :=
  efficiency_shift_by_loss 10 20 ("dusty", 20) (by simp [DEFECT_LOSS])

/-- C7: the efficiency function (pure by construction) is monotonically
non-increasing in the deviation |targetOptimalAngle - angle| and in the
condition loss, never exceeds 99 for any inputs, and never exceeds 98
when the condition loss is 0. -/
theorem efficiency_monotone_capped :
    (∀ (a b : ℕ) (L d : ℚ),
        |target_optimal L - (b : ℚ)| ≤ |target_optimal L - (a : ℚ)| →
        efficiency a L d ≤ efficiency b L d) ∧
    (∀ (a : ℕ) (L d e : ℚ), d ≤ e → efficiency a L e ≤ efficiency a L d) ∧
    (∀ (a : ℕ) (L d : ℚ), efficiency a L d ≤ 99) ∧
    (∀ (a : ℕ) (L : ℚ), efficiency a L 0 ≤ 98) := by
  refine ⟨?_, ?_, ?_, ?_⟩
  · intro a b L d h
    rw [efficiency_eq, efficiency_eq]
    exact max_le_max (le_refl 0) (min_le_min (le_refl 99) (by linarith))
  · intro a L d e h
    rw [efficiency_eq, efficiency_eq]
    exact max_le_max (le_refl 0) (min_le_min (le_refl 99) (by linarith))
  · intro a L d
    exact efficiency_le_99 a L d
  · intro a L
    rw [efficiency_eq]
    have h : 0 ≤ |target_optimal L - (a : ℚ)| := abs_nonneg _
    exact max_le (by norm_num) (le_trans (min_le_right _ _) (by linarith))

/-- Witness for C7: at latitude 0 the angle 3 deviates less from the
3.1-degree target than the angle 5 does, so it scores at least as well;
the remaining parts instantiated at concrete inputs. -/
theorem efficiency_monotone_capped_witness :
    efficiency 5 0 0 ≤ efficiency 3 0 0 ∧
    efficiency 4 28 30 ≤ efficiency 4 28 0 ∧
    efficiency 10 50 60 ≤ 99 ∧
    efficiency 10 50 0 ≤ 98 := by
  have h3 : |target_optimal 0 - ((3:ℕ) : ℚ)| = 1/10 := by
    rw [target_optimal]
    push_cast
    rw [abs_of_nonneg] <;> norm_num
  have h5 : |target_optimal 0 - ((5:ℕ) : ℚ)| = 19/10 := by
    rw [target_optimal]
    push_cast
    rw [abs_of_nonpos] <;> norm_num
  exact ⟨efficiency_monotone_capped.1 5 3 0 0 (by rw [h3, h5]; norm_num),
    efficiency_monotone_capped.2.1 4 28 0 30 (by norm_num),
    efficiency_monotone_capped.2.2.1 10 50 60,
    efficiency_monotone_capped.2.2.2 10 50⟩

/-- C9: for every latitude, however far outside [0,90], and every table
condition entry, the (always-terminating) 91-candidate search returns an
angle in [0,90] and an efficiency in [0,99]. -/
theorem optimize_bounded (L : ℚ) (p : String × ℚ) (_hp : p ∈ DEFECT_LOSS) :
    (optimize L p.2).1 ≤ 90 ∧
    0 ≤ (optimize L p.2).2 ∧ (optimize L p.2).2 ≤ 99 := by
  obtain ⟨h1, h2, _, _⟩ := optimize_spec L p.2
  exact ⟨h1, h2 ▸ efficiency_nonneg _ _ _, h2 ▸ efficiency_le_99 _ _ _⟩

/-- Witness for C9 at the far out-of-range latitude -1000 with the
entry ("snow covered", 40). -/
theorem optimize_bounded_witness :
    (optimize (-1000) (("snow covered", (40:ℚ)).2)).1 ≤ 90 ∧
    0 ≤ (optimize (-1000) (("snow covered", (40:ℚ)).2)).2 ∧
    (optimize (-1000) (("snow covered", (40:ℚ)).2)).2 ≤ 99 :=
  optimize_bounded (-1000) ("snow covered", 40) (by simp [DEFECT_LOSS])

/-- C4: for every raw classifier text (the empty text included),
normalization lower-cases and trims it and scans the defect table in
its iteration order, returning the first key occurring as a substring
of the processed text, or "clean" when no key matches (out of
vocabulary or empty); in particular the raw text "Dusty Panel"
normalizes to "dusty" with loss 20. -/
theorem classify_first_substring_match :
    (∀ (img : Image) (call : Image → Except Unit String) (t : String),
        call img = Except.ok t →
        (∃ p as bs, DEFECT_LOSS = as ++ p :: bs ∧
            classify_image call (some img) = p.1 ∧
            strContains (stripLower t) p.1 = true ∧
            ∀ q ∈ as, strContains (stripLower t) q.1 = false) ∨
        (classify_image call (some img) = "clean" ∧
            ∀ q ∈ DEFECT_LOSS, strContains (stripLower t) q.1 = false)) ∧
    (∀ (img : Image) (call : Image → Except Unit String),
        call img = Except.ok "Dusty Panel" →
        classify_image call (some img) = "dusty" ∧
        lookupLoss (classify_image call (some img)) = 20) := by
  constructor
  · intro img call t hcall
    by_cases ht : t = ""
    · subst ht
      right
      refine ⟨by simp [classify_image, hcall], ?_⟩
      intro q hq
      fin_cases hq <;> rfl
    have hcl : classify_image call (some img) =
        match DEFECT_LOSS.find? (fun p => strContains (stripLower t) p.1) with
        | some p => p.1
        | none => "clean" := by
      simp only [classify_image, hcall, if_neg ht]
    cases hfind : DEFECT_LOSS.find? (fun p => strContains (stripLower t) p.1) with
    | none =>
      right
      rw [hcl, hfind]
      refine ⟨rfl, ?_⟩
      intro q hq
      have h := List.find?_eq_none.mp hfind q hq
      simpa using h
    | some p =>
      left
      obtain ⟨hp, as, bs, heq, hall⟩ := List.find?_eq_some.mp hfind
      refine ⟨p, as, bs, heq, by rw [hcl, hfind], hp, ?_⟩
      intro q hq
      simpa using hall q hq
  · intro img call hcall
    have h1 : classify_image call (some img) = "dusty" := by
      simp [classify_image, hcall, stripLower, pyStrip, dropWhileWs, strContains,
        containsSub, startsWithList, DEFECT_LOSS]
    refine ⟨h1, ?_⟩
    rw [h1]
    simp [lookupLoss, DEFECT_LOSS]

/-- Witness for C4: a classifier answering "Dusty Panel" yields the
label "dusty" and a table loss of 20. -/
theorem classify_first_substring_match_witness :
    classify_image (fun _ => Except.ok "Dusty Panel") (some ⟨0⟩) = "dusty" ∧
    lookupLoss (classify_image (fun _ => Except.ok "Dusty Panel") (some ⟨0⟩)) = 20 :=
  classify_first_substring_match.2 ⟨0⟩ (fun _ => Except.ok "Dusty Panel") rfl

/-- C5: every error raised by the upstream classification call is caught
at the classification boundary and yields the label "clean" (loss 0),
identically to a no-match response, and the optimizer proceeds normally
on the clean loss. -/
theorem classifier_error_degrades_to_clean
    (call : Image → Except Unit String) (img : Image) (lat : ℚ)
    (herr : call img = Except.error ()) :
    classify_image call (some img) = "clean" ∧
    compute_best_angle call (some img) (some lat) =
      (toString (optimize lat 0).1 ++ "°", "Clean", round2 (optimize lat 0).2) ∧
    (∀ (call2 : Image → Except Unit String) (t : String),
        call2 img = Except.ok t → t ≠ "" →
        (∀ q ∈ DEFECT_LOSS, strContains (stripLower t) q.1 = false) →
        classify_image call2 (some img) = classify_image call (some img)) := by
  have h1 : classify_image call (some img) = "clean" := by
    simp [classify_image, herr]
  refine ⟨h1, ?_, ?_⟩
  · have h2 : lookupLoss "clean" = 0 := by simp [lookupLoss, DEFECT_LOSS]
    have h3 : titleCase "clean" = "Clean" := by decide
    simp only [compute_best_angle, h1, h2, h3]
  · intro call2 t hcall2 ht hnone
    have hfind : DEFECT_LOSS.find? (fun p => strContains (stripLower t) p.1) = none :=
      List.find?_eq_none.mpr (fun q hq => by simp [hnone q hq])
    rw [h1]
    simp only [classify_image, hcall2, if_neg ht, hfind]

/-- Witness for C5: a raising classifier on a concrete image at
latitude 28. -/
theorem classifier_error_degrades_to_clean_witness :
    classify_image (fun _ => Except.error ()) (some ⟨0⟩) = "clean" ∧
    compute_best_angle (fun _ => Except.error ()) (some ⟨0⟩) (some 28) =
      (toString (optimize 28 0).1 ++ "°", "Clean", round2 (optimize 28 0).2) ∧
    (∀ (call2 : Image → Except Unit String) (t : String),
        call2 ⟨0⟩ = Except.ok t → t ≠ "" →
        (∀ q ∈ DEFECT_LOSS, strContains (stripLower t) q.1 = false) →
        classify_image call2 (some ⟨0⟩) =
          classify_image (fun _ => Except.error ()) (some ⟨0⟩)) :=
  classifier_error_degrades_to_clean (fun _ => Except.error ()) ⟨0⟩ 28 rfl

/-- C10: for every input, the classification function returns a key of
the defect table, so the fallback-0 lookup in the entry point always
finds that key's stored loss. -/
theorem classify_always_table_key (call : Image → Except Unit String)
    (image : Option Image) :
    ∃ p ∈ DEFECT_LOSS, classify_image call image = p.1 ∧
      lookupLoss (classify_image call image) = p.2 := by
  have hmem : ∃ p ∈ DEFECT_LOSS, classify_image call image = p.1 := by
    cases image with
    | none => exact ⟨("clean", 0), by simp [DEFECT_LOSS], rfl⟩
    | some img =>
      cases hc : call img with
      | error e => exact ⟨("clean", 0), by simp [DEFECT_LOSS], by simp [classify_image, hc]⟩
      | ok t =>
        by_cases ht : t = ""
        · exact ⟨("clean", 0), by simp [DEFECT_LOSS], by simp [classify_image, hc, ht]⟩
        · cases hfind : DEFECT_LOSS.find? (fun p => strContains (stripLower t) p.1) with
          | none =>
            exact ⟨("clean", 0), by simp [DEFECT_LOSS],
              by simp [classify_image, hc, ht, hfind]⟩
          | some p =>
            exact ⟨p, List.mem_of_find?_eq_some hfind,
              by simp [classify_image, hc, ht, hfind]⟩
  obtain ⟨p, hp, hcp⟩ := hmem
  refine ⟨p, hp, hcp, ?_⟩
  rw [hcp]
  exact lookupLoss_key p hp

/-- C8: at latitude 0 with the clean condition (loss 0), the target
optimal angle is 3.1, the optimizer selects angle 3, and the resulting
efficiency is 98 - 0.4·0.1 = 97.96. -/
theorem latitude_zero_clean_scenario :
    target_optimal 0 = 31/10 ∧ optimize 0 0 = (3, 9796/100) := by
  refine ⟨by rw [target_optimal]; norm_num, ?_⟩
  have heff3 : efficiency 3 0 0 = 9796/100 := by
    norm_num [efficiency, pymax, pymin, pyabs, angle_deviation_loss, target_optimal,
      base_loss]
  have hub : ∀ a : ℕ, a ≠ 3 → efficiency a 0 0 < 9796/100 := by
    intro a ha
    have habs : 9/10 ≤ |target_optimal 0 - (a : ℚ)| := by
      rw [target_optimal]
      rcases lt_or_le a 3 with h | h
      · have h2 : a ≤ 2 := Nat.lt_succ_iff.mp h
        have h2q : (a : ℚ) ≤ 2 := by exact_mod_cast h2
        refine le_trans ?_ (le_abs_self _)
        linarith
      · have h4 : 4 ≤ a := by omega
        have h4q : (4 : ℚ) ≤ (a : ℚ) := by exact_mod_cast h4
        refine le_trans ?_ (neg_le_abs _)
        linarith
    rw [efficiency_eq]
    exact max_lt (by norm_num)
      (lt_of_le_of_lt (min_le_right _ _) (by linarith))
  obtain ⟨h1, h2, h3, h4⟩ := optimize_spec 0 0
  have hr1 : (optimize 0 0).1 = 3 := by
    by_contra h
    have hlt := hub _ h
    have hge := h3 3 (by norm_num)
    rw [heff3] at hge
    rw [h2] at hge
    exact absurd (lt_of_le_of_lt hge hlt) (lt_irrefl _)
  have hr2 : (optimize 0 0).2 = 9796/100 := by rw [h2, hr1, heff3]
  rw [Prod.ext_iff]
  exact ⟨hr1, hr2⟩

end SolarPanel
